import Mathlib

/-!
Shallow embedding of the zkevm-chain coordinator core
(`src/coordinator/src/shared_state.rs`) and proofs about it.

Modelling conventions:
* byte strings (`Bytes`, `&[u8]`, `H256`, RLP payloads) are `List Nat`;
* 256-bit words read from calldata are `Nat` (big-endian interpretation);
* a Rust panic is `Option.none` / a dedicated `panicked` constructor;
* external collaborators (the L1/L2 RPC endpoints, keccak256, the ABI
  decoder of the `ethers` library, the prover sub-process) are passed in
  as function parameters, so each theorem quantifies over their answers;
* the `tokio` lock discipline is flattened: every step of the coordinator
  is a function from the `RwState` record to an updated record plus the
  externally visible actions (transactions sent).
-/

namespace ZkevmChain

/-- Result of a prover run, `Proofs { evm_proof, state_proof }`. -/
structure Proofs where
  evm_proof : List Nat
  state_proof : List Nat
deriving DecidableEq

/-- An `L1MessageSent` event decoded into a beacon
(`L1MessageBeacon { from, to, value, fee, calldata, timestamp }`);
`from` and `to` are spelled `from_` and `to_` because both are reserved
words in Lean. -/
structure L1MessageBeacon where
  from_ : Nat
  to_ : Nat
  value : Nat
  fee : Nat
  calldata : List Nat
  timestamp : Nat
deriving DecidableEq

/-- The forkchoice record `ForkchoiceStateV1 { head, safe, finalized }`. -/
structure ForkchoiceStateV1 where
  head_block_hash : List Nat
  safe_block_hash : List Nat
  finalized_block_hash : List Nat
deriving DecidableEq

/-- The mutable coordinator state `RwState`.  `prover_requests` is the
`HashMap<U64, Option<Proofs>>` as an association list; `inflight` is ghost
state recording the block numbers of spawned proof tasks that have not yet
run to completion (the source's `spawn`ed futures).  The unused `nodes`
field is omitted. -/
structure RwState where
  chain_state : ForkchoiceStateV1
  prover_requests : List (Nat × Option Proofs)
  pending_proofs : Nat
  last_sync_block : Nat
  l1_message_queue : List L1MessageBeacon
  inflight : List Nat
deriving DecidableEq

/-- `HashMap::get`. -/
def mapGet (k : Nat) (m : List (Nat × Option Proofs)) : Option (Option Proofs) :=
  (m.find? (fun e => e.1 == k)).map (fun e => e.2)

/-- `HashMap::remove`. -/
def mapRemove (k : Nat) (m : List (Nat × Option Proofs)) : List (Nat × Option Proofs) :=
  m.filter (fun e => e.1 != k)

/-- `HashMap::insert` (replaces any existing binding). -/
def mapInsert (k : Nat) (v : Option Proofs) (m : List (Nat × Option Proofs)) :
    List (Nat × Option Proofs) :=
  (k, v) :: mapRemove k m

/-- Rust slice indexing `&v[a..b]`: defined (as the sub-list) iff
`a ≤ b ∧ b ≤ v.length`, otherwise the program panics (`none`). -/
def sliceRange (v : List Nat) (a b : Nat) : Option (List Nat) :=
  if a ≤ b ∧ b ≤ v.length then some ((v.drop a).take (b - a)) else none

/-- `U256::from(bytes)`: big-endian interpretation of a byte slice. -/
def u256OfBytes (bs : List Nat) : Nat :=
  bs.foldl (fun acc b => acc * 256 + b) 0

/-- `usize::MAX` on the 64-bit targets the coordinator runs on;
`U256::as_usize` panics above this. -/
def usizeMax : Nat := 2 ^ 64 - 1

/-- Outcome of the `BlockSubmitted` branch of `SharedState::sync` for one
log, given the emitting transaction's input bytes.  `panicked w` records an
out-of-bounds slice (or `as_usize` overflow) panic, where `w` tells whether
the `TODO: zeropad block data` warning was logged before the panic;
`ok w miss bh` means the branch completed, logging the warning iff `w`,
logging the `block not found` error iff `miss`, and writing `bh` to
`safe_block_hash`. -/
inductive BeaconResult where
  | panicked (warned : Bool)
  | ok (warned : Bool) (lookupMiss : Bool) (blockHash : List Nat)
deriving DecidableEq

/-- The `BlockSubmitted` branch of `SharedState::sync`
(shared_state.rs lines 199-240): read the declared payload length from
`tx_data[36..68]`, slice the payload at `tx_data[68..68+len]`, keccak it,
query the leader via `eth_getHeaderByHash` (answer abstracted as
`leaderHasHeader`), and produce the new `safe_block_hash`. -/
def processBlockSubmitted (keccak : List Nat → List Nat)
    (leaderHasHeader : List Nat → Bool) (txInput : List Nat) : BeaconResult :=
  match sliceRange txInput 36 68 with
  | none => .panicked false
  | some lenBytes =>
    let len := u256OfBytes lenBytes
    if len > usizeMax then .panicked false
    else
      let start := 68
      if 2 ^ 64 ≤ start + len then
        -- `end = start + len` overflows usize: debug builds panic at the
        -- addition itself; release builds wrap `end` to a value below
        -- `start` (and below `tx_data.len()`, which is at least 68 here),
        -- so the warn check is false and `&tx_data[start..end]` panics —
        -- no warning is logged in either profile
        .panicked false
      else
      let stop := start + len
      if stop > txInput.length then
        -- `log::warn!("TODO: zeropad block data")`, then `&tx_data[start..end]`
        -- panics because `end` exceeds the slice length
        .panicked true
      else
        match sliceRange txInput start stop with
        | none => .panicked true
        | some payload =>
          let bh := keccak payload
          .ok false (!leaderHasHeader bh) bh

/-- A bridge log as seen by the sync loop, with the external decoding
steps abstracted: a `BlockSubmitted` log carries the input bytes of the
transaction fetched via `eth_getTransactionByHash`; an `L1MessageSent` log
carries the result of the `ethers` ABI decoder (`none` when decoding
fails); `other` is a log whose first topic matches none of the three
bridge topics. -/
inductive L1Log where
  | blockSubmitted (txInput : List Nat)
  | blockFinalized (data : List Nat)
  | l1MessageSent (parsed : Option L1MessageBeacon)
  | other
deriving DecidableEq

/-- The external world as seen by one `sync` invocation: the L1 block
number answer, the logs per fetched range, keccak256 and the leader's
header-lookup answers. -/
structure SyncEnv where
  latest : Nat
  getLogs : Nat → Nat → List L1Log
  keccak : List Nat → List Nat
  leaderHasHeader : List Nat → Bool

/-- Dispatch of one log inside `SharedState::sync` (lines 196-287).
`none` is a panic: `H256::from_slice` on `BlockFinalized` data that is not
32 bytes, `.unwrap()` on a failed `L1MessageSent` decode, or the
`BlockSubmitted` slice panics. -/
def processLog (env : SyncEnv) (st : RwState) : L1Log → Option RwState
  | .blockSubmitted txInput =>
    match processBlockSubmitted env.keccak env.leaderHasHeader txInput with
    | .panicked _ => none
    | .ok _ _ bh =>
      some { st with chain_state := { st.chain_state with safe_block_hash := bh } }
  | .blockFinalized data =>
    if data.length = 32 then
      some { st with chain_state := { st.chain_state with finalized_block_hash := data } }
    else none
  | .l1MessageSent parsed =>
    match parsed with
    | none => none
    | some beacon => some { st with l1_message_queue := st.l1_message_queue ++ [beacon] }
  | .other => some st

/-- Process a batch of logs in order, stopping at the first panic. -/
def processLogs (env : SyncEnv) : List L1Log → RwState → Option RwState
  | [], st => some st
  | l :: ls, st =>
    match processLog env st l with
    | none => none
    | some st2 => processLogs env ls st2

/-- The range-fetch loop of `SharedState::sync` (lines 181-290): while
`from ≤ latest`, fetch the logs of `[from, min (from+1) latest]`, process
them, and continue from `to + 1`. -/
def syncLoop (env : SyncEnv) (fromB : Nat) (st : RwState) : Option RwState :=
  if _h : fromB ≤ env.latest then
    let toB := min (fromB + 1) env.latest
    match processLogs env (env.getLogs fromB toB) st with
    | none => none
    | some st2 => syncLoop env (toB + 1) st2
  else some st
termination_by env.latest + 1 - fromB
decreasing_by
  omega

/-- `SharedState::sync` (lines 162-293): run the loop from
`last_sync_block + 1`, then unconditionally commit
`last_sync_block = latest`.  `none` means some log made the task panic. -/
def sync (env : SyncEnv) (st : RwState) : Option RwState :=
  match syncLoop env (st.last_sync_block + 1) st with
  | none => none
  | some st2 => some { st2 with last_sync_block := env.latest }

/-! ## Mine step: L1→L2 message delivery phase -/

/-- An L2 transaction as handed to `transaction_to_l2(to, value, calldata)`. -/
structure L2Tx where
  to_ : Nat
  value : Nat
  data : List Nat
deriving DecidableEq

/-- The message-delivery phase of `SharedState::mine` (lines 300-312):
if the queue is non-empty, `drain(0..1)` removes the first beacon and one
L2 transaction `(to, value, calldata)` is submitted for it; otherwise
nothing happens.  Returns the updated state and the submitted
transactions. -/
def mine_msg_phase (st : RwState) : RwState × List L2Tx :=
  if st.l1_message_queue.length > 0 then
    ({ st with l1_message_queue := st.l1_message_queue.drop 1 },
     (st.l1_message_queue.take 1).map fun m => ⟨m.to_, m.value, m.calldata⟩)
  else (st, [])

/-! ## Finalize step and the proof-task lifecycle -/

/-- The fields of `Block<H256>` that `finalize_block` reads. -/
structure BlockHeader where
  number : Nat
  hash : List Nat
deriving DecidableEq

/-- The three arguments handed to the `finalizeBlock(bytes32,bytes,bytes)`
ABI encoder: the block hash, `witness = Bytes::from(block_hash.encode())`
(the 32 hash bytes), and `proof_data`, built by extending an empty vector
with `evm_proof` then `state_proof`. -/
structure FinalizeSubmission where
  block_hash : List Nat
  witness : List Nat
  proof_data : List Nat
deriving DecidableEq

/-- What one `finalize_block` call did, beside its state update. -/
inductive FinalizeAction where
  | backpressure
  | spawned (k : Nat)
  | waiting
  | submit (s : FinalizeSubmission)
deriving DecidableEq

def MAX_PENDING_PROOFS : Nat := 1

/-- `SharedState::finalize_block` (lines 422-485): look up
`prover_requests[block.number]`.  Absent: under back-pressure
(`pending_proofs >= MAX_PENDING_PROOFS`) return unchanged, else insert a
pending slot, bump the counter and spawn a proof task (recorded in the
ghost `inflight` list).  Pending: wait.  Ready: build the finalize
submission. -/
def finalize_block (block : BlockHeader) (st : RwState) : RwState × FinalizeAction :=
  let k := block.number
  match mapGet k st.prover_requests with
  | none =>
    if st.pending_proofs ≥ MAX_PENDING_PROOFS then (st, .backpressure)
    else
      ({ st with prover_requests := mapInsert k none st.prover_requests,
                 pending_proofs := st.pending_proofs + 1,
                 inflight := k :: st.inflight }, .spawned k)
  | some none => (st, .waiting)
  | some (some proof) =>
    (st, .submit { block_hash := block.hash,
                   witness := block.hash,
                   proof_data := proof.evm_proof ++ proof.state_proof })

/-- Completion of the proof task spawned in `finalize_block`
(lines 443-453): decrement `pending_proofs`; when `request_proof` failed
(`res = none`) remove the slot, on success store the proof.  The finished
task leaves the ghost `inflight` list. -/
def proof_task_finish (k : Nat) (res : Option Proofs) (st : RwState) : RwState :=
  let st2 := { st with pending_proofs := st.pending_proofs - 1,
                       inflight := st.inflight.erase k }
  match res with
  | none => { st2 with prover_requests := mapRemove k st2.prover_requests }
  | some proof => { st2 with prover_requests := mapInsert k (some proof) st2.prover_requests }

/-- Reachable coordinator states, as far as the proof-request fields are
concerned: from the initial state, a state evolves by `finalize_block`
calls, by completions of spawned proof tasks, and by any step that leaves
`prover_requests`, `pending_proofs` and `inflight` untouched (sync, mine
and submit never write those fields). -/
inductive Reach : RwState → Prop
  | init (cs : ForkchoiceStateV1) :
      Reach { chain_state := cs, prover_requests := [], pending_proofs := 0,
              last_sync_block := 0, l1_message_queue := [], inflight := [] }
  | finalize (b : BlockHeader) {st : RwState} :
      Reach st → Reach (finalize_block b st).1
  | task (k : Nat) (res : Option Proofs) {st : RwState} :
      Reach st → k ∈ st.inflight → Reach (proof_task_finish k res st)
  | frame {st st2 : RwState} :
      Reach st →
      st2.prover_requests = st.prover_requests →
      st2.pending_proofs = st.pending_proofs →
      st2.inflight = st.inflight →
      Reach st2

/-! ## Submit step -/

/-- The fields of a block that the submit-step range walk uses. -/
structure BlockInfo where
  hash : List Nat
  parent_hash : List Nat
  number : Nat
deriving DecidableEq

/-- Modelled from the spec: `get_blocks_between` lives in
`src/coordinator/src/utils.rs`, which is not among the sources; §4.G
describes it as enumerating the block range `(safe, head]` via repeated
`eth_getBlockByHash`, walking from `head` backwards until `safe` is
reached (exclusive).  `getBlock` abstracts the RPC lookup; `fuel` bounds
the walk (the real chain is finite). -/
def get_blocks_between (getBlock : List Nat → BlockInfo) :
    Nat → List Nat → List Nat → List BlockInfo
  | 0, _, _ => []
  | fuel + 1, safe, h =>
    if h = safe then []
    else
      let b := getBlock h
      b :: get_blocks_between getBlock fuel safe b.parent_hash

/-- One `submitBlock(headerRlp)` L1 transaction, with the header RLP that
was fetched via `debug_getHeaderRlp(number)`. -/
structure SubmitTx where
  headerRlp : List Nat
deriving DecidableEq

/-- `SharedState::submit_blocks` (lines 360-400): when `safe ≠ head`,
collect the blocks since `safe` and, iterating the collected list in
reverse (`blocks.iter().rev()`), submit one `submitBlock` transaction per
block whose payload is `debug_getHeaderRlp` of that block's number; when
`safe = head`, do nothing.  Returns the submitted L1 transactions in
order. -/
def submit_blocks (getBlock : List Nat → BlockInfo) (getHeaderRlp : Nat → List Nat)
    (fuel : Nat) (st : RwState) : List SubmitTx :=
  let safe := st.chain_state.safe_block_hash
  let head := st.chain_state.head_block_hash
  if safe ≠ head then
    ((get_blocks_between getBlock fuel safe head).reverse).map
      fun b => ⟨getHeaderRlp b.number⟩
  else []

/-- The backward walk of §4.G, as a relation: `ChainSeg getBlock safe h bs`
says that starting at hash `h` and following `parent_hash` links, the
blocks `bs` (newest first) are exactly those strictly between `safe`
(exclusive) and `h` (inclusive). -/
inductive ChainSeg (getBlock : List Nat → BlockInfo) (safe : List Nat) :
    List Nat → List BlockInfo → Prop
  | nil : ChainSeg getBlock safe safe []
  | cons {h : List Nat} {rest : List BlockInfo} :
      h ≠ safe → ChainSeg getBlock safe (getBlock h).parent_hash rest →
      ChainSeg getBlock safe h (getBlock h :: rest)

/-- The forkchoice state right after `SharedState::init` with an
all-zeroes genesis hash. -/
def initialChainState : ForkchoiceStateV1 :=
  { head_block_hash := List.replicate 32 0,
    safe_block_hash := List.replicate 32 0,
    finalized_block_hash := List.replicate 32 0 }

/-- The coordinator state right after `SharedState::new` + `init`. -/
def initialRw : RwState :=
  { chain_state := initialChainState, prover_requests := [], pending_proofs := 0,
    last_sync_block := 0, l1_message_queue := [], inflight := [] }

/-- A degenerate external world used to instantiate theorems at concrete
inputs: no logs, keccak answering the empty string, all header lookups
succeeding. -/
def trivEnv : SyncEnv :=
  { latest := 0, getLogs := fun _ _ => [], keccak := fun _ => [],
    leaderHasHeader := fun _ => true }

/-! ## Lemmas -/

theorem mapGet_mapInsert (k : Nat) (v : Option Proofs) (m : List (Nat × Option Proofs)) :
    mapGet k (mapInsert k v m) = some v := by
  simp [mapGet, mapInsert, List.find?]

theorem mapGet_mapRemove (k : Nat) (m : List (Nat × Option Proofs)) :
    mapGet k (mapRemove k m) = none := by
  induction m with
  | nil => rfl
  | cons e m ih =>
    by_cases h : e.1 = k
    · simp only [mapGet, mapRemove] at ih ⊢
      simp [h, ih]
    · simp only [mapGet, mapRemove] at ih ⊢
      simp [List.find?, h, ih]

theorem syncLoop_of_gt (env : SyncEnv) (fromB : Nat) (st : RwState)
    (h : env.latest < fromB) : syncLoop env fromB st = some st := by
  unfold syncLoop
  simp [Nat.not_le_of_lt h]

/-! ## C1 -/

/-- C1 (counterexample): with a 68-byte `BlockSubmitted` calldata declaring
an empty payload and a leader on which every `eth_getHeaderByHash` lookup
misses, the sync step still overwrites `safe_block_hash` with the computed
hash — refuting the claim that a failed lookup leaves
`chain_state.safe_block_hash` unchanged. -/
theorem c1_counterexample :
    processBlockSubmitted (fun _ => List.replicate 32 1) (fun _ => false)
        (List.replicate 68 0)
      = .ok false true (List.replicate 32 1) ∧
    (processLog ⟨0, fun _ _ => [], fun _ => List.replicate 32 1, fun _ => false⟩ initialRw
        (.blockSubmitted (List.replicate 68 0))).map
        (fun s => s.chain_state.safe_block_hash)
      = some (List.replicate 32 1) ∧
    initialRw.chain_state.safe_block_hash ≠ List.replicate 32 1 := by
  decide

/-- C1 (amended): in the `BlockSubmitted` branch, a failed
`eth_getHeaderByHash` lookup only logs an error; whenever the branch
completes with the lookup missing (`lookupMiss = true`), the coordinator
still sets `safe_block_hash` to the computed block hash, exactly as on a
successful lookup. -/
theorem c1_safe_advanced_even_on_miss (env : SyncEnv) (st : RwState) (tx : List Nat)
    (w : Bool) (bh : List Nat)
    (h : processBlockSubmitted env.keccak env.leaderHasHeader tx = .ok w true bh) :
    processLog env st (.blockSubmitted tx)
      = some { st with chain_state := { st.chain_state with safe_block_hash := bh } } := by
  simp only [processLog, h]

/-- C1 (witness): the amended theorem applied to the counterexample input. -/
theorem c1_witness :
    processBlockSubmitted (fun _ => List.replicate 32 1) (fun _ => false)
        (List.replicate 68 0)
      = .ok false true (List.replicate 32 1) ∧
    processLog ⟨0, fun _ _ => [], fun _ => List.replicate 32 1, fun _ => false⟩ initialRw
        (.blockSubmitted (List.replicate 68 0))
      = some { initialRw with chain_state :=
          { initialRw.chain_state with safe_block_hash := List.replicate 32 1 } } :=
  ⟨by decide,
   c1_safe_advanced_even_on_miss
     ⟨0, fun _ _ => [], fun _ => List.replicate 32 1, fun _ => false⟩
     initialRw (List.replicate 68 0) false (List.replicate 32 1) (by decide)⟩

/-! ## C2 -/

/-- C2 (counterexample): a 68-byte `BlockSubmitted` calldata declaring a
1-byte payload makes `end = 69` exceed the calldata length; the code logs
the `TODO: zeropad block data` warning and then panics at
`&tx_data[68..69]` — no hash over a truncated slice is ever computed,
refuting the claim that the coordinator proceeds without panicking.  A
68-byte calldata declaring length `2^64 - 1` also panics, but without the
warning: `end = 68 + len` overflows `usize` before the warn check. -/
theorem c2_counterexample :
    (List.replicate 67 0 ++ [1]).length
        < 68 + u256OfBytes (((List.replicate 67 0 ++ [1]).drop 36).take 32) ∧
    processBlockSubmitted trivEnv.keccak trivEnv.leaderHasHeader
        (List.replicate 67 0 ++ [1])
      = .panicked true ∧
    processLog trivEnv initialRw (.blockSubmitted (List.replicate 67 0 ++ [1])) = none ∧
    processBlockSubmitted trivEnv.keccak trivEnv.leaderHasHeader
        (List.replicate 60 0 ++ List.replicate 8 255)
      = .panicked false := by
  decide

/-- C2 (amended): when the declared payload length makes
`end = 68 + length` exceed the transaction calldata length, the
coordinator panics instead of hashing a truncated slice: when the `usize`
addition `68 + length` does not overflow, it logs the warning and then
panics at the payload slice (`.panicked true`); when the addition
overflows `usize`, it panics without logging the warning
(`.panicked false` — overflow panic in debug builds, wrapped slice bounds
in release builds).  Either way the log is not processed further. -/
theorem c2_warn_then_panic (env : SyncEnv) (st : RwState) (tx : List Nat)
    (h68 : 68 ≤ tx.length)
    (hfit : u256OfBytes ((tx.drop 36).take 32) ≤ usizeMax)
    (hover : tx.length < 68 + u256OfBytes ((tx.drop 36).take 32)) :
    (68 + u256OfBytes ((tx.drop 36).take 32) < 2 ^ 64 →
      processBlockSubmitted env.keccak env.leaderHasHeader tx = .panicked true) ∧
    (2 ^ 64 ≤ 68 + u256OfBytes ((tx.drop 36).take 32) →
      processBlockSubmitted env.keccak env.leaderHasHeader tx = .panicked false) ∧
    processLog env st (.blockSubmitted tx) = none := by
  have hslice : sliceRange tx 36 68 = some ((tx.drop 36).take 32) := by
    simp [sliceRange]
    omega
  by_cases hw : 68 + u256OfBytes ((tx.drop 36).take 32) < 2 ^ 64
  · have h1 : processBlockSubmitted env.keccak env.leaderHasHeader tx
        = .panicked true := by
      simp only [processBlockSubmitted, hslice]
      rw [if_neg (by omega), if_neg (by omega), if_pos (by omega)]
    exact ⟨fun _ => h1, fun hc => absurd hc (by omega), by simp only [processLog, h1]⟩
  · have h1 : processBlockSubmitted env.keccak env.leaderHasHeader tx
        = .panicked false := by
      simp only [processBlockSubmitted, hslice]
      rw [if_neg (by omega), if_pos (by omega)]
    exact ⟨fun hc => absurd hc hw, fun _ => h1, by simp only [processLog, h1]⟩

/-- C2 (witness): the amended theorem applied to the counterexample input
(declared length 1, so the addition does not overflow). -/
theorem c2_witness :
    68 ≤ (List.replicate 67 0 ++ [1]).length ∧
    processBlockSubmitted trivEnv.keccak trivEnv.leaderHasHeader
        (List.replicate 67 0 ++ [1])
      = .panicked true ∧
    processLog trivEnv initialRw (.blockSubmitted (List.replicate 67 0 ++ [1])) = none :=
  ⟨by decide,
   (c2_warn_then_panic trivEnv initialRw (List.replicate 67 0 ++ [1])
     (by decide) (by decide) (by decide)).1 (by decide),
   (c2_warn_then_panic trivEnv initialRw (List.replicate 67 0 ++ [1])
     (by decide) (by decide) (by decide)).2.2⟩

/-! ## C3 -/

/-- C3 (counterexample): a sync invocation with `last_sync_block = 5` and
an L1 answering `eth_blockNumber = 3` does not return with the state
unmodified: it commits `last_sync_block = 3`, a strict decrease — refuting
both the non-decrease claim and the claimed early return. -/
theorem c3_counterexample :
    (sync ⟨3, fun _ _ => [], fun _ => [], fun _ => true⟩
        { initialRw with last_sync_block := 5 }).map (fun s => s.last_sync_block)
      = some 3 ∧ (3 : Nat) < 5 := by
  have h := syncLoop_of_gt ⟨3, fun _ _ => [], fun _ => [], fun _ => true⟩ 6
      { initialRw with last_sync_block := 5 } (by norm_num)
  refine ⟨?_, by norm_num⟩
  simp [sync, h]

/-- C3 (amended): `sync` has no early return; it always commits
`last_sync_block = latest`.  When `last_sync_block ≥ latest` the log loop
processes nothing and the only mutation is that assignment — a no-op when
the two are equal, but a strict decrease whenever `last_sync_block >
latest`; `last_sync_block` is non-decreasing only under the assumption
that the L1 `eth_blockNumber` answers are themselves non-decreasing. -/
theorem c3_commits_latest_unconditionally (env : SyncEnv) (st : RwState)
    (h : env.latest ≤ st.last_sync_block) :
    sync env st = some { st with last_sync_block := env.latest } := by
  have hl := syncLoop_of_gt env (st.last_sync_block + 1) st (by omega)
  simp [sync, hl]

/-- C3 (witness): the amended theorem applied to the counterexample input. -/
theorem c3_witness :
    (3 : Nat) ≤ 5 ∧
    sync ⟨3, fun _ _ => [], fun _ => [], fun _ => true⟩
        { initialRw with last_sync_block := 5 }
      = some { initialRw with last_sync_block := 3 } :=
  ⟨by norm_num,
   c3_commits_latest_unconditionally ⟨3, fun _ _ => [], fun _ => [], fun _ => true⟩
     { initialRw with last_sync_block := 5 } (by norm_num)⟩

/-! ## C4 -/

/-- C4 (counterexample): a `BlockFinalized` log whose data is empty (not
32 bytes) does not get logged-and-skipped: `H256::from_slice` panics, and
a sync pass over that log aborts (`none`) instead of continuing — and
likewise an `L1MessageSent` log whose ABI decode fails panics at
`.unwrap()`. -/
theorem c4_counterexample :
    processLog trivEnv initialRw (.blockFinalized []) = none ∧
    processLog trivEnv initialRw (.l1MessageSent none) = none ∧
    sync ⟨1, fun _ _ => [.blockFinalized []], fun _ => [], fun _ => true⟩ initialRw
      = none := by
  refine ⟨by decide, by decide, ?_⟩
  unfold sync
  unfold syncLoop
  simp [processLogs, processLog, initialRw]

/-- C4 (amended): a log that fails to decode — `BlockFinalized` data that
is not 32 bytes, or an `L1MessageSent` log whose ABI decoding fails — is
not skipped: the sync task panics on it, and the remaining logs of the
batch are not processed. -/
theorem c4_decode_failure_panics (env : SyncEnv) (st : RwState) (data : List Nat)
    (ls : List L1Log) (hd : data.length ≠ 32) :
    processLog env st (.blockFinalized data) = none ∧
    processLog env st (.l1MessageSent none) = none ∧
    processLogs env (.blockFinalized data :: ls) st = none ∧
    processLogs env (.l1MessageSent none :: ls) st = none := by
  refine ⟨?_, rfl, ?_, rfl⟩ <;> simp [processLog, processLogs, hd]

/-- C4 (witness): the amended theorem applied to an empty-data
`BlockFinalized` log. -/
theorem c4_witness :
    ([] : List Nat).length ≠ 32 ∧
    processLog trivEnv initialRw (.blockFinalized []) = none ∧
    processLogs trivEnv [.blockFinalized []] initialRw = none :=
  ⟨by decide,
   (c4_decode_failure_panics trivEnv initialRw [] [] (by decide)).1,
   (c4_decode_failure_panics trivEnv initialRw [] [] (by decide)).2.2.1⟩

/-! ## C5 -/

/-- On every reachable state, `pending_proofs` counts exactly the spawned
proof tasks still in flight, and never exceeds `MAX_PENDING_PROOFS`. -/
theorem reach_invariant {st : RwState} (h : Reach st) :
    st.pending_proofs = st.inflight.length ∧
    st.pending_proofs ≤ MAX_PENDING_PROOFS := by
  induction h with
  | init cs => exact ⟨rfl, Nat.zero_le _⟩
  | @finalize b st h ih =>
    obtain ⟨ih1, ih2⟩ := ih
    cases hv : mapGet b.number st.prover_requests with
    | none =>
      by_cases hp : st.pending_proofs ≥ MAX_PENDING_PROOFS
      · simpa [finalize_block, hv, hp] using ⟨ih1, ih2⟩
      · have h0 : st.pending_proofs = 0 := by
          simp [MAX_PENDING_PROOFS] at hp
          omega
        simp [finalize_block, hv, hp, h0, MAX_PENDING_PROOFS, ← ih1]
    | some v =>
      cases v with
      | none => simpa [finalize_block, hv] using ⟨ih1, ih2⟩
      | some p => simpa [finalize_block, hv] using ⟨ih1, ih2⟩
  | @task k res st h hmem ih =>
    obtain ⟨ih1, ih2⟩ := ih
    have hlen : (st.inflight.erase k).length = st.inflight.length - 1 :=
      List.length_erase_of_mem hmem
    cases res with
    | none =>
      constructor
      · simp [proof_task_finish, hlen, ih1]
      · simp only [proof_task_finish]
        omega
    | some p =>
      constructor
      · simp [proof_task_finish, hlen, ih1]
      · simp only [proof_task_finish]
        omega
  | @frame st st2 h e1 e2 e3 ih =>
    rw [e2, e3]
    exact ih

/-- C5: on every reachable state, `pending_proofs ∈ [0, MAX_PENDING_PROOFS]`
(with `MAX_PENDING_PROOFS = 1`) and equals the number of in-flight proof
tasks; `finalize_block` on an absent slot is a complete no-op under
back-pressure (`pending_proofs ≥ MAX_PENDING_PROOFS`), increments the
counter only when strictly below the bound, and every task completion
decrements it by exactly one. -/
theorem c5_pending_proofs_bounded (st : RwState) (h : Reach st) :
    st.pending_proofs ≤ MAX_PENDING_PROOFS ∧
    st.pending_proofs = st.inflight.length ∧
    (∀ b : BlockHeader, mapGet b.number st.prover_requests = none →
      MAX_PENDING_PROOFS ≤ st.pending_proofs →
      finalize_block b st = (st, .backpressure)) ∧
    (∀ b : BlockHeader, mapGet b.number st.prover_requests = none →
      st.pending_proofs < MAX_PENDING_PROOFS →
      (finalize_block b st).1.pending_proofs = st.pending_proofs + 1 ∧
      (finalize_block b st).2 = .spawned b.number) ∧
    (∀ k res, k ∈ st.inflight →
      (proof_task_finish k res st).pending_proofs + 1 = st.pending_proofs) := by
  obtain ⟨h1, h2⟩ := reach_invariant h
  refine ⟨h2, h1, ?_, ?_, ?_⟩
  · intro b hv hp
    simp [finalize_block, hv, hp]
  · intro b hv hp
    have hnp : ¬ st.pending_proofs ≥ MAX_PENDING_PROOFS := by omega
    constructor <;> simp [finalize_block, hv, hnp]
  · intro k res hmem
    have hpos : 0 < st.pending_proofs := by
      rw [h1]
      exact List.length_pos.mpr (List.ne_nil_of_mem hmem)
    cases res <;> simp only [proof_task_finish] <;> omega

/-- C5 (witness): the invariant holds at the freshly initialized
coordinator state. -/
theorem c5_witness :
    Reach initialRw ∧ initialRw.pending_proofs ≤ MAX_PENDING_PROOFS :=
  ⟨Reach.init initialChainState,
   (c5_pending_proofs_bounded initialRw (Reach.init initialChainState)).1⟩

/-! ## C6 -/

/-- C6: every `finalizeBlock` submission built from a ready proof passes
as its `proof` argument exactly `evm_proof ++ state_proof` — its length is
the sum of the two lengths, its first `evm_proof.length` bytes are
`evm_proof` and the rest is `state_proof` — and as its `witness` argument
the 32-byte encoding of the block hash. -/
theorem c6_finalize_submission (block : BlockHeader) (st : RwState) (proof : Proofs)
    (hready : mapGet block.number st.prover_requests = some (some proof))
    (hlen : block.hash.length = 32) :
    finalize_block block st
      = (st, .submit ⟨block.hash, block.hash, proof.evm_proof ++ proof.state_proof⟩) ∧
    (proof.evm_proof ++ proof.state_proof).length
      = proof.evm_proof.length + proof.state_proof.length ∧
    (proof.evm_proof ++ proof.state_proof).take proof.evm_proof.length
      = proof.evm_proof ∧
    (proof.evm_proof ++ proof.state_proof).drop proof.evm_proof.length
      = proof.state_proof ∧
    block.hash.length = 32 := by
  refine ⟨by simp [finalize_block, hready], by simp, by simp, by simp, hlen⟩

/-- C6 (witness): the submission shape evaluated on a concrete ready
slot. -/
theorem c6_witness :
    mapGet 7 [(7, some ⟨[1, 2], [3]⟩)] = some (some ⟨[1, 2], [3]⟩) ∧
    finalize_block ⟨7, List.replicate 32 5⟩
        { initialRw with prover_requests := [(7, some ⟨[1, 2], [3]⟩)] }
      = ({ initialRw with prover_requests := [(7, some ⟨[1, 2], [3]⟩)] },
         .submit ⟨List.replicate 32 5, List.replicate 32 5, [1, 2, 3]⟩) :=
  ⟨by decide,
   (c6_finalize_submission ⟨7, List.replicate 32 5⟩
     { initialRw with prover_requests := [(7, some ⟨[1, 2], [3]⟩)] }
     ⟨[1, 2], [3]⟩ (by decide) (by decide)).1⟩

/-! ## C7 -/

/-- C7: per block number `k` the proof slot follows
`absent → pending → ready`, with failure returning `pending → absent`:
spawning inserts a pending (`some none`) slot, a finished task decrements
`pending_proofs` in both outcomes, stores the proof as ready
(`some (some proof)`) on success, and removes the slot entirely on
failure so a later finalize pass re-requests it. -/
theorem c7_proof_task_transitions (st : RwState) (k : Nat) (hv : List Nat) (p : Proofs)
    (habsent : mapGet k st.prover_requests = none)
    (hfree : st.pending_proofs < MAX_PENDING_PROOFS) :
    (finalize_block ⟨k, hv⟩ st).2 = .spawned k ∧
    mapGet k (finalize_block ⟨k, hv⟩ st).1.prover_requests = some none ∧
    (∀ s : RwState, (proof_task_finish k none s).pending_proofs
      = s.pending_proofs - 1) ∧
    (∀ s : RwState, (proof_task_finish k (some p) s).pending_proofs
      = s.pending_proofs - 1) ∧
    (∀ s : RwState, mapGet k (proof_task_finish k none s).prover_requests = none) ∧
    (∀ s : RwState, mapGet k (proof_task_finish k (some p) s).prover_requests
      = some (some p)) := by
  have hnp : ¬ st.pending_proofs ≥ MAX_PENDING_PROOFS := by omega
  refine ⟨by simp [finalize_block, habsent, hnp], ?_, fun s => rfl, fun s => rfl, ?_, ?_⟩
  · simp [finalize_block, habsent, hnp, mapGet_mapInsert]
  · intro s
    simp [proof_task_finish, mapGet_mapRemove]
  · intro s
    simp [proof_task_finish, mapGet_mapInsert]

/-- C7 (witness): the slot transitions evaluated at the initial state for
block number 7. -/
theorem c7_witness :
    mapGet 7 initialRw.prover_requests = none ∧
    initialRw.pending_proofs < MAX_PENDING_PROOFS ∧
    (finalize_block ⟨7, List.replicate 32 5⟩ initialRw).2 = .spawned 7 ∧
    mapGet 7 (finalize_block ⟨7, List.replicate 32 5⟩ initialRw).1.prover_requests
      = some none :=
  ⟨by decide, by decide,
   (c7_proof_task_transitions initialRw 7 (List.replicate 32 5) ⟨[], []⟩
     (by decide) (by decide)).1,
   (c7_proof_task_transitions initialRw 7 (List.replicate 32 5) ⟨[], []⟩
     (by decide) (by decide)).2.1⟩

/-! ## C8 -/

/-- C8: with a non-empty `l1_message_queue`, the mine step's message phase
removes exactly the first (oldest) beacon — leaving the rest of the queue
unchanged — and submits exactly one L2 transaction with
`to = beacon.to`, `value = beacon.value`, `data = beacon.calldata`; with
an empty queue it removes nothing and sends nothing. -/
theorem c8_mine_drains_exactly_first (st : RwState) (m : L1MessageBeacon)
    (rest : List L1MessageBeacon) (hq : st.l1_message_queue = m :: rest) :
    mine_msg_phase st
      = ({ st with l1_message_queue := rest }, [⟨m.to_, m.value, m.calldata⟩]) ∧
    (∀ s : RwState, s.l1_message_queue = [] → mine_msg_phase s = (s, [])) := by
  constructor
  · simp [mine_msg_phase, hq]
  · intro s hs
    simp [mine_msg_phase, hs]

/-- C8 (witness): the drain evaluated on a one-element queue and on the
empty queue. -/
theorem c8_witness :
    ({ initialRw with
        l1_message_queue := [⟨1, 2, 3, 4, [5], 0⟩] } : RwState).l1_message_queue
      = ⟨1, 2, 3, 4, [5], 0⟩ :: [] ∧
    mine_msg_phase { initialRw with l1_message_queue := [⟨1, 2, 3, 4, [5], 0⟩] }
      = (initialRw, [⟨2, 3, [5]⟩]) ∧
    mine_msg_phase initialRw = (initialRw, []) := by
  refine ⟨rfl, ?_, ?_⟩
  · have h := (c8_mine_drains_exactly_first
      { initialRw with l1_message_queue := [⟨1, 2, 3, 4, [5], 0⟩] }
      ⟨1, 2, 3, 4, [5], 0⟩ [] rfl).1
    exact h.trans (by decide)
  · exact (c8_mine_drains_exactly_first
      { initialRw with l1_message_queue := [⟨1, 2, 3, 4, [5], 0⟩] }
      ⟨1, 2, 3, 4, [5], 0⟩ [] rfl).2 initialRw rfl

/-! ## C9 -/

/-- With enough fuel, the backward walk of `get_blocks_between` returns
exactly the chain segment `(safe, head]`, newest block first. -/
theorem get_blocks_between_eq_of_chainSeg {getBlock : List Nat → BlockInfo}
    {safe h : List Nat} {bs : List BlockInfo}
    (hseg : ChainSeg getBlock safe h bs) :
    ∀ fuel, bs.length ≤ fuel → get_blocks_between getBlock fuel safe h = bs := by
  induction hseg with
  | nil =>
    intro fuel _
    cases fuel with
    | zero => rfl
    | succ f => simp [get_blocks_between]
  | @cons h rest hne _ ih =>
    intro fuel hf
    cases fuel with
    | zero => simp at hf
    | succ f =>
      simp only [get_blocks_between, if_neg hne]
      have := ih f (by simpa using hf)
      simp [this]

/-- C9: the submit step is a no-op whenever `safe = head`; otherwise,
with the block-range helper collecting the blocks of `(safe, head]` by
walking backwards from `head` (relation `ChainSeg`, newest first), it
issues one `submitBlock(headerRlp)` L1 transaction per block in forward
chain order — the reverse of the collected list — each with the header
RLP fetched via `debug_getHeaderRlp` for that block's number. -/
theorem c9_submit_blocks_order (getBlock : List Nat → BlockInfo)
    (getHeaderRlp : Nat → List Nat) (fuel : Nat) (st : RwState) (bs : List BlockInfo)
    (hseg : ChainSeg getBlock st.chain_state.safe_block_hash
      st.chain_state.head_block_hash bs)
    (hf : bs.length ≤ fuel) :
    (st.chain_state.safe_block_hash = st.chain_state.head_block_hash →
      submit_blocks getBlock getHeaderRlp fuel st = []) ∧
    (st.chain_state.safe_block_hash ≠ st.chain_state.head_block_hash →
      submit_blocks getBlock getHeaderRlp fuel st
        = bs.reverse.map fun b => ⟨getHeaderRlp b.number⟩) := by
  constructor
  · intro he
    simp [submit_blocks, he]
  · intro hne
    simp [submit_blocks, hne, get_blocks_between_eq_of_chainSeg hseg fuel hf]

/-- C9 (witness): on the two-block chain `[0] ← [1] ← [2]` with
`safe = [0]` and `head = [2]`, the submitted header RLPs come out in
forward chain order: block 1 first, then block 2. -/
theorem c9_witness :
    submit_blocks (fun h => if h = [2] then ⟨[2], [1], 2⟩ else ⟨[1], [0], 1⟩)
        (fun n => [n]) 2
        { initialRw with chain_state := ⟨[2], [0], [0]⟩ }
      = [⟨[1]⟩, ⟨[2]⟩] := by
  have hseg : ChainSeg (fun h => if h = [2] then ⟨[2], [1], 2⟩ else ⟨[1], [0], 1⟩)
      [0] [2] [⟨[2], [1], 2⟩, ⟨[1], [0], 1⟩] := by
    refine ChainSeg.cons (by decide) ?_
    refine ChainSeg.cons (by decide) ?_
    exact ChainSeg.nil
  have h := (c9_submit_blocks_order
    (fun h => if h = [2] then ⟨[2], [1], 2⟩ else ⟨[1], [0], 1⟩) (fun n => [n]) 2
    { initialRw with chain_state := ⟨[2], [0], [0]⟩ }
    [⟨[2], [1], 2⟩, ⟨[1], [0], 1⟩] hseg (by decide)).2 (by decide)
  exact h.trans (by decide)

/-! ## C10 -/

/-- C10: when the emitting transaction's input is shorter than 68 bytes,
the length extraction `input[36..68]` slices out of bounds and the sync
step panics — it neither skips the log nor returns an error, and the
remaining logs of the batch are not processed. -/
theorem c10_short_input_panics (env : SyncEnv) (st : RwState) (tx : List Nat)
    (h : tx.length < 68) :
    processBlockSubmitted env.keccak env.leaderHasHeader tx = .panicked false ∧
    processLog env st (.blockSubmitted tx) = none ∧
    (∀ ls : List L1Log, processLogs env (.blockSubmitted tx :: ls) st = none) := by
  have hs : sliceRange tx 36 68 = none := by
    simp [sliceRange]
    omega
  have h1 : processBlockSubmitted env.keccak env.leaderHasHeader tx
      = .panicked false := by
    simp only [processBlockSubmitted, hs]
  have h2 : processLog env st (.blockSubmitted tx) = none := by
    simp only [processLog, h1]
  exact ⟨h1, h2, fun ls => by simp only [processLogs, h2]⟩

/-- C10 (witness): a 10-byte input makes the `BlockSubmitted` branch
panic before any warning is logged. -/
theorem c10_witness :
    (List.replicate 10 0 : List Nat).length < 68 ∧
    processBlockSubmitted trivEnv.keccak trivEnv.leaderHasHeader (List.replicate 10 0)
      = .panicked false ∧
    processLog trivEnv initialRw (.blockSubmitted (List.replicate 10 0)) = none :=
  ⟨by decide,
   (c10_short_input_panics trivEnv initialRw (List.replicate 10 0) (by decide)).1,
   (c10_short_input_panics trivEnv initialRw (List.replicate 10 0) (by decide)).2.1⟩

end ZkevmChain
